import Mathlib

/-!
# Verification of the nrfdfu serial-DFU session logic

A shallow embedding of the protocol-session logic of `src/lib.rs` and the
port selection of `src/bin/main.rs`.  Pure computations (CRC32 chaining,
image padding, slice chunking) are modelled as Lean functions; the
request/response session is modelled as a state monad over a device oracle
(a list of responses), recording every request sent.  Rust panics
(arithmetic underflow on `u16`, `slice::chunks` with chunk size zero) are
modelled explicitly, distinct from recoverable errors.
-/

/-! ## CRC32 (the `crc32fast` crate)

`crc32fast::Hasher::new_with_initial(init)` stores `init`; each `write`
complements the state, folds the reflected IEEE polynomial `0xEDB88320`
over the bytes least-significant-bit first, and complements again;
`finalize` returns the state.  In `Nat`, complementing a `u32` is xor with
`0xFFFFFFFF`. -/

/-- One bit step of the reflected CRC-32: shift right, conditionally xor
the reflected IEEE polynomial. -/
def crcBitStep (s : Nat) : Nat :=
  if s % 2 = 1 then (s / 2) ^^^ 0xEDB88320 else s / 2

/-- One byte step: xor the byte into the low bits, then eight bit steps. -/
def crcByteStep (s b : Nat) : Nat :=
  crcBitStep (crcBitStep (crcBitStep (crcBitStep
    (crcBitStep (crcBitStep (crcBitStep (crcBitStep (s ^^^ b))))))))

/-- Run the raw (un-complemented) CRC register over a byte list. -/
def crcRun (state : Nat) (data : List Nat) : Nat :=
  data.foldl crcByteStep state

/-- `crc32 initial data` is what `Hasher::new_with_initial(initial)`
followed by `write(data)` and `finalize()` returns: complement in,
fold, complement out. -/
def crc32 (initial : Nat) (data : List Nat) : Nat :=
  crcRun (initial ^^^ 0xFFFFFFFF) data ^^^ 0xFFFFFFFF

/-! ## Padding (`run`, src/lib.rs lines 52–58)

`while bin.len() % 4 != 0 { bin.push(0xff); }` — a loop that runs at most
three times; embedded with explicit fuel 3, which the loop-equation lemma
below shows is always enough. -/

/-- The padding loop body, with fuel bounding the number of iterations. -/
def padLoop : Nat → List Nat → List Nat
  | 0, bin => bin
  | fuel + 1, bin => if bin.length % 4 = 0 then bin else padLoop fuel (bin ++ [0xff])

/-- Pad the firmware image with `0xff` until its length is a multiple of 4. -/
def padTo4 (bin : List Nat) : List Nat :=
  padLoop 3 bin

/-! ## Chunking (`slice::chunks`)

`l.chunks(n)` yields consecutive sub-slices of length `n` (the last may be
shorter) and panics when `n = 0`.  `chunksAux` is the fueled total split;
`rustChunks` adds the panic case as `none`. -/

/-- Fueled chunk split; with fuel at least the list length and `1 ≤ n`
this computes `slice::chunks`. -/
def chunksAux {α : Type} (n : Nat) : Nat → List α → List (List α)
  | _, [] => []
  | 0, _ :: _ => []
  | fuel + 1, x :: xs => (x :: xs).take n :: chunksAux n fuel ((x :: xs).drop n)

/-- `chunksOf n l` splits `l` into consecutive chunks of size `n`
(last one possibly shorter); meaningful for `1 ≤ n`. -/
def chunksOf {α : Type} (n : Nat) (l : List α) : List (List α) :=
  chunksAux n l.length l

/-- Rust `slice::chunks(n)`: panics (modelled `none`) when `n = 0`. -/
def rustChunks {α : Type} (n : Nat) (l : List α) : Option (List (List α)) :=
  if n = 0 then none else some (chunksOf n l)

/-! ## u16 arithmetic of `stream_object_data`

`(self.mtu - 1) / 2 - 1` over `u16`: each subtraction panics on
underflow (checked semantics). -/

/-- Checked unsigned subtraction: `none` models the underflow panic. -/
def checkedSub (a b : Nat) : Option Nat :=
  if b ≤ a then some (a - b) else none

/-- `max_chunk_size` of `stream_object_data`: `(mtu - 1) / 2 - 1` with
checked subtractions. -/
def maxChunkSize (mtu : Nat) : Option Nat :=
  (checkedSub mtu 1).bind fun x => checkedSub (x / 2) 1

/-! ## The session model (`BootloaderConnection`, src/lib.rs)

Requests are the nine message kinds of `messages.rs` as issued by
`lib.rs`; the device is an oracle: a list of responses, each either a
transport/parse error (anything `request_response` can fail with —
I/O error, timeout, framing error, opcode mismatch, non-Success
result code) or a well-shaped response value.  The session monad
threads the oracle, the log of requests sent, and the stored `mtu`,
and stops at the first failure; a `Fail.panicked` outcome models a
Rust panic, distinct from a returned error. -/

/-- The object type parameter of Select/Create requests. -/
inductive ObjectType
  | command
  | data
deriving DecidableEq

/-- The requests `lib.rs` issues, with their parameters. -/
inductive Req
  | protocolVersion
  | hardwareVersion
  | select (ty : ObjectType)
  | create (ty : ObjectType) (size : Nat)
  | setPrn (everyN : Nat)
  | getMtu
  | write (bytes : List Nat)
  | crc
  | execute
deriving DecidableEq

/-- `SelectResponse`: max object size, current offset, running CRC. -/
structure SelectResponse where
  maxSize : Nat
  offset : Nat
  crc : Nat
deriving DecidableEq

/-- `CrcResponse`: current offset and running CRC. -/
structure CrcResponse where
  offset : Nat
  crc : Nat
deriving DecidableEq

/-- A well-shaped response value, tagged by which request it answers. -/
inductive RespVal
  | version (v : Nat)
  | hw
  | mtu (m : Nat)
  | sel (r : SelectResponse)
  | crcVal (r : CrcResponse)
  | empty
deriving DecidableEq

/-- How a session step can fail: a propagated error (`Box<dyn Error>`)
or a Rust panic. -/
inductive Fail
  | err (msg : String)
  | panicked (msg : String)
deriving DecidableEq

instance {ε α : Type} [DecidableEq ε] [DecidableEq α] : DecidableEq (Except ε α) :=
  fun x y =>
    match x, y with
    | Except.ok a, Except.ok b =>
        if h : a = b then isTrue (congrArg Except.ok h)
        else isFalse fun hc => h (Except.ok.inj hc)
    | Except.error a, Except.error b =>
        if h : a = b then isTrue (congrArg Except.error h)
        else isFalse fun hc => h (Except.error.inj hc)
    | Except.ok _, Except.error _ => isFalse fun hc => Except.noConfusion hc
    | Except.error _, Except.ok _ => isFalse fun hc => Except.noConfusion hc

/-- Session state: the device oracle (responses not yet consumed), the
log of requests sent so far, and the connection's stored MTU. -/
structure St where
  resps : List (Except String RespVal)
  sent : List Req
  mtu : Nat
deriving DecidableEq

/-- The session monad: state plus short-circuiting failure.  The state is
returned also on failure so that "no request is sent after a failure" is
an observable property. -/
def M (α : Type) : Type :=
  St → Except Fail α × St

def M.pure {α : Type} (a : α) : M α :=
  fun s => (Except.ok a, s)

def M.bind {α β : Type} (x : M α) (f : α → M β) : M β :=
  fun s =>
    match x s with
    | (Except.ok a, s') => f a s'
    | (Except.error e, s') => (Except.error e, s')

instance : Monad M where
  pure := M.pure
  bind := M.bind

/-- Fail with `e`, keeping the state. -/
def M.fail {α : Type} (e : Fail) : M α :=
  fun s => (Except.error e, s)

/-- Lift a pure `Except` computation (e.g. `check_crc`) into the monad. -/
def M.liftE {α : Type} (x : Except Fail α) : M α :=
  fun s => (x, s)

/-- `BootloaderConnection::request`: frame and write `req`, await no
response.  Serial write/flush are assumed to succeed. -/
def sendOnly (r : Req) : M Unit :=
  fun s => (Except.ok (), { s with sent := s.sent ++ [r] })

/-- `BootloaderConnection::request_response`: write `req`, then read and
parse one response frame.  An exhausted oracle models a read timeout; an
error entry models any failing read/parse (I/O, framing, opcode mismatch,
non-Success result code), propagated as the operation's error. -/
def requestResponse (r : Req) : M RespVal :=
  fun s =>
    match s.resps with
    | [] => (Except.error (Fail.err "timeout"), { s with sent := s.sent ++ [r] })
    | Except.ok v :: rest =>
        (Except.ok v, { s with sent := s.sent ++ [r], resps := rest })
    | Except.error msg :: rest =>
        (Except.error (Fail.err msg), { s with sent := s.sent ++ [r], resps := rest })

/-- Read the stored `self.mtu`. -/
def getMtuState : M Nat :=
  fun s => (Except.ok s.mtu, s)

/-- `this.mtu = mtu`. -/
def setMtuState (m : Nat) : M Unit :=
  fun s => (Except.ok (), { s with mtu := m })

/-- A response of the wrong shape for the issued request fails in
`parse_response`. -/
def fetch_protocol_version : M Nat := do
  let r ← requestResponse Req.protocolVersion
  match r with
  | RespVal.version v => M.pure v
  | _ => M.fail (Fail.err "parse error")

def fetch_mtu : M Nat := do
  let r ← requestResponse Req.getMtu
  match r with
  | RespVal.mtu m => M.pure m
  | _ => M.fail (Fail.err "parse error")

def select_object_command : M SelectResponse := do
  let r ← requestResponse (Req.select ObjectType.command)
  match r with
  | RespVal.sel sr => M.pure sr
  | _ => M.fail (Fail.err "parse error")

def select_object_data : M SelectResponse := do
  let r ← requestResponse (Req.select ObjectType.data)
  match r with
  | RespVal.sel sr => M.pure sr
  | _ => M.fail (Fail.err "parse error")

def create_command_object (size : Nat) : M Unit := do
  let r ← requestResponse (Req.create ObjectType.command size)
  match r with
  | RespVal.empty => M.pure ()
  | _ => M.fail (Fail.err "parse error")

def create_data_object (size : Nat) : M Unit := do
  let r ← requestResponse (Req.create ObjectType.data size)
  match r with
  | RespVal.empty => M.pure ()
  | _ => M.fail (Fail.err "parse error")

def get_crc : M CrcResponse := do
  let r ← requestResponse Req.crc
  match r with
  | RespVal.crcVal c => M.pure c
  | _ => M.fail (Fail.err "parse error")

def execute : M Unit := do
  let r ← requestResponse Req.execute
  match r with
  | RespVal.empty => M.pure ()
  | _ => M.fail (Fail.err "parse error")

/-- The protocol version this utility supports (`PROTOCOL_VERSION`). -/
def PROTOCOL_VERSION : Nat := 1

/-- `BootloaderConnection::new`: check the protocol version before
anything else, then query and store the MTU. -/
def connNew : M Unit := do
  let v ← fetch_protocol_version
  if v = PROTOCOL_VERSION then do
    let m ← fetch_mtu
    setMtuState m
  else
    M.fail (Fail.err "device reports unsupported protocol version")

/-- `check_crc`: recompute the CRC over `data` seeded with `initial` and
compare with the device-reported value. -/
def check_crc (data : List Nat) (received : Nat) (initial : Nat) : Except Fail Nat :=
  let expected := crc32 initial data
  if expected = received then Except.ok expected
  else Except.error (Fail.err "crc failed")

/-- Send one `WriteRequest` per fragment, no responses awaited
(the `for` loop body of `stream_object_data`). -/
def sendFragments : List (List Nat) → M Unit
  | [] => M.pure ()
  | c :: cs => do
    sendOnly (Req.write c)
    sendFragments cs

/-- `stream_object_data`: compute `max_chunk_size = (mtu - 1) / 2 - 1`
(u16, checked), split the buffer with `slice::chunks`, send each fragment
as one write request. -/
def stream_object_data (data : List Nat) : M Unit := do
  let m ← getMtuState
  match maxChunkSize m with
  | none => M.fail (Fail.panicked "attempt to subtract with overflow")
  | some k =>
    match rustChunks k data with
    | none => M.fail (Fail.panicked "chunk size must be non-zero")
    | some cs => sendFragments cs

/-- `send_dat`: select Command, create a Command object of the data's
length, stream it, verify the CRC seeded with 0, execute. -/
def send_dat (data : List Nat) : M Unit := do
  let _sel ← select_object_command
  create_command_object data.length
  stream_object_data data
  let received ← get_crc
  let _c ← M.liftE (check_crc data received.crc 0)
  execute

/-- The per-chunk loop of `send_bin`, threading the previous chunk's
verified CRC. -/
def sendBinLoop : List (List Nat) → Nat → M Unit
  | [], _ => M.pure ()
  | chunk :: rest, prevCrc => do
    create_data_object chunk.length
    stream_object_data chunk
    let received ← get_crc
    let newCrc ← M.liftE (check_crc chunk received.crc prevCrc)
    execute
    sendBinLoop rest newCrc

/-- `send_bin`: select Data once, then split the image into chunks of the
reported `max_size` and run the per-chunk loop with initial CRC 0. -/
def send_bin (image : List Nat) : M Unit := do
  let sel ← select_object_data
  match rustChunks sel.maxSize image with
  | none => M.fail (Fail.panicked "chunk size must be non-zero")
  | some cs => sendBinLoop cs 0

/-- The USB port metadata `serialport` reports. -/
structure UsbInfo where
  vid : Nat
  pid : Nat
deriving DecidableEq

/-- `serialport::SerialPortType`, restricted to what `select_port` inspects. -/
inductive SerialPortType
  | usbPort (usb : UsbInfo)
  | other
deriving DecidableEq

/-- One entry of `available_ports()`. -/
structure SerialPortInfo where
  port_name : String
  port_type : SerialPortType
deriving DecidableEq

/-- Nordic Semiconductor's USB vendor id (`NORDIC_BOOTLOADER_USB_VID`). -/
def NORDIC_BOOTLOADER_USB_VID : Nat := 0x1915

/-- The default nRF52 bootloader's USB product id (`NORDIC_BOOTLOADER_USB_PID`). -/
def NORDIC_BOOTLOADER_USB_PID : Nat := 0x521f

/-- The filter closure of `select_port`. -/
def matchesNordic (p : SerialPortInfo) : Bool :=
  match p.port_type with
  | SerialPortType.usbPort usb =>
      usb.vid == NORDIC_BOOTLOADER_USB_VID && usb.pid == NORDIC_BOOTLOADER_USB_PID
  | SerialPortType.other => false

/-- An opened serial port with its configuration. -/
structure OpenPort where
  name : String
  baud : Nat
  timeout_ms : Nat
deriving DecidableEq

/-- `select_port`: filter the enumerated ports by the bootloader VID/PID,
fail on zero or several matches, otherwise open the single match at the
given baud rate with a 60 s read timeout; `openOracle` models the outcome
of `serialport::new(..).open()`. -/
def select_port (openOracle : String → Except String Unit)
    (ports : List SerialPortInfo) (baud_rate : Nat) : Except String OpenPort :=
  let matching_ports := ports.filter matchesNordic
  match matching_ports with
  | [] => Except.error "no matching USB serial device found"
  | [p] =>
      match openOracle p.port_name with
      | Except.ok () => Except.ok ⟨p.port_name, baud_rate, 60000⟩
      | Except.error e => Except.error e
  | _ => Except.error "multiple matching USB serial devices found"

set_option maxRecDepth 100000
set_option maxHeartbeats 2000000

/-! ## A concrete session

A tiny concrete update — a 2-byte init packet, a 4-byte image — and the
oracle of well-shaped, correct responses for it (MTU 64, device max object
size 4096, correct running CRCs), used to exhibit concrete session runs. -/

/-- The well-shaped responses a correct device gives to one run of
`sendBinLoop` over `cs` when the previous verified CRC is `prev`: for each
chunk a Create ack, the correct running CRC, and an Execute ack. -/
def binChunkResps (prev : Nat) : List (List Nat) → List (Except String RespVal)
  | [] => []
  | c :: cs =>
      Except.ok RespVal.empty
        :: Except.ok (RespVal.crcVal ⟨0, crc32 prev c⟩)
        :: Except.ok RespVal.empty
        :: binChunkResps (crc32 prev c) cs

/-- The requests `sendBinLoop` sends for chunks `cs` at fragment size `k`:
per chunk, Create(Data, len), the write fragments, GetCrc, Execute. -/
def binLoopSent (k : Nat) : List (List Nat) → List Req
  | [] => []
  | c :: cs =>
      Req.create ObjectType.data c.length
        :: ((chunksOf k c).map Req.write
            ++ (Req.crc :: Req.execute :: binLoopSent k cs))

theorem xor_mask_cancel (x : Nat) : x ^^^ 0xFFFFFFFF ^^^ 0xFFFFFFFF = x := by
  rw [Nat.xor_assoc, Nat.xor_self, Nat.xor_zero]

theorem crc32_nil (i : Nat) : crc32 i [] = i := by
  simp only [crc32, crcRun, List.foldl_nil]
  exact xor_mask_cancel i

/-- Extending a digest: seeding a fresh CRC32 with a finished digest
continues the computation. -/
theorem crc32_append (i : Nat) (a b : List Nat) :
    crc32 (crc32 i a) b = crc32 i (a ++ b) := by
  unfold crc32 crcRun
  rw [xor_mask_cancel, List.foldl_append]

theorem crc32_foldl (chunks : List (List Nat)) :
    ∀ i : Nat, List.foldl crc32 i chunks = crc32 i chunks.flatten := by
  induction chunks with
  | nil => intro i; simp [crc32_nil]
  | cons c cs ih =>
      intro i
      simp only [List.foldl_cons, List.flatten_cons, ih, crc32_append]

/-- C1: over any split of a firmware image into chunks of valid sizes
(each at most `max_size`), chaining the per-chunk expected CRCs of
`send_bin` — each seeded with the previous chunk's verified CRC, the first
with 0 — yields exactly the CRC32 of the concatenated image with zero
initial state; moreover `check_crc` accepts precisely that chained value
and returns it as the next seed. -/
theorem crc_chaining (max_size : Nat) (chunks : List (List Nat))
    (hsz : ∀ c ∈ chunks, c.length ≤ max_size) :
    List.foldl (fun acc c => crc32 acc c) 0 chunks = crc32 0 chunks.flatten ∧
    ∀ prev c : _, check_crc c (crc32 prev c) prev = Except.ok (crc32 prev c) := by
  refine ⟨crc32_foldl chunks 0, fun prev c => ?_⟩
  simp [check_crc]

theorem crc_chaining_witness :
    (∀ c ∈ [[1, 2], [3], [4, 5]], List.length c ≤ 2) ∧
    (List.foldl (fun acc c => crc32 acc c) 0 [[1, 2], [3], [4, 5]]
        = crc32 0 ([[1, 2], [3], [4, 5]] : List (List Nat)).flatten ∧
      ∀ prev c : _, check_crc c (crc32 prev c) prev = Except.ok (crc32 prev c)) :=
  ⟨by decide, crc_chaining 2 [[1, 2], [3], [4, 5]] (by decide)⟩

/-! ## Padding -/

/-- The fueled padding loop satisfies the `while` loop's unfolding
equation, certifying that fuel 3 is always sufficient. -/
theorem padTo4_eq (bin : List Nat) :
    padTo4 bin = if bin.length % 4 = 0 then bin else padTo4 (bin ++ [0xff]) := by
  have h : bin.length % 4 = 0 ∨ bin.length % 4 = 1 ∨ bin.length % 4 = 2 ∨
      bin.length % 4 = 3 := by omega
  rcases h with h | h | h | h
  · simp [padTo4, padLoop, h]
  · have h1 : (bin.length + 1) % 4 = 2 := by omega
    have h2 : (bin.length + 2) % 4 = 3 := by omega
    have h3 : (bin.length + 3) % 4 = 0 := by omega
    simp [padTo4, padLoop, h, h1, h2, h3]
  · have h1 : (bin.length + 1) % 4 = 3 := by omega
    have h2 : (bin.length + 2) % 4 = 0 := by omega
    simp [padTo4, padLoop, h, h1, h2]
  · have h1 : (bin.length + 1) % 4 = 0 := by omega
    simp [padTo4, padLoop, h, h1]

/-- Closed form of the padding loop. -/
theorem padTo4_closed (bin : List Nat) :
    padTo4 bin = bin ++ List.replicate ((4 - bin.length % 4) % 4) 0xff := by
  have h : bin.length % 4 = 0 ∨ bin.length % 4 = 1 ∨ bin.length % 4 = 2 ∨
      bin.length % 4 = 3 := by omega
  rcases h with h | h | h | h
  · simp [padTo4, padLoop, h]
  · have h1 : (bin.length + 1) % 4 = 2 := by omega
    have h2 : (bin.length + 2) % 4 = 3 := by omega
    have hr : (4 - bin.length % 4) % 4 = 3 := by omega
    simp [padTo4, padLoop, h, h1, h2, hr, List.replicate_succ]
  · have h1 : (bin.length + 1) % 4 = 3 := by omega
    have h2 : (bin.length + 2) % 4 = 0 := by omega
    have hr : (4 - bin.length % 4) % 4 = 2 := by omega
    simp [padTo4, padLoop, h, h1, h2, hr, List.replicate_succ]
  · have h1 : (bin.length + 1) % 4 = 0 := by omega
    have hr : (4 - bin.length % 4) % 4 = 1 := by omega
    simp [padTo4, padLoop, h, h1, hr, List.replicate_succ]

/-- C5: for an image of length L, padding before transfer makes the length
the smallest multiple of 4 that is at least L, leaves the first L bytes
unchanged, and fills the rest with 0xFF. -/
theorem padTo4_spec (bin : List Nat) :
    (padTo4 bin).length % 4 = 0 ∧
    bin.length ≤ (padTo4 bin).length ∧
    (∀ m : Nat, m % 4 = 0 → bin.length ≤ m → (padTo4 bin).length ≤ m) ∧
    (padTo4 bin).take bin.length = bin ∧
    ∀ b ∈ (padTo4 bin).drop bin.length, b = 0xff := by
  rw [padTo4_closed]
  refine ⟨?_, ?_, ?_, ?_, ?_⟩
  · simp only [List.length_append, List.length_replicate]; omega
  · simp only [List.length_append, List.length_replicate]; omega
  · intro m hm hl
    simp only [List.length_append, List.length_replicate]; omega
  · rw [List.take_left]
  · rw [List.drop_left]
    intro b hb
    exact List.eq_of_mem_replicate hb

theorem padTo4_spec_witness :
    (padTo4 [1, 2, 3]).length % 4 = 0 ∧
    List.length [1, 2, 3] ≤ (padTo4 [1, 2, 3]).length ∧
    (∀ m : Nat, m % 4 = 0 → List.length [1, 2, 3] ≤ m → (padTo4 [1, 2, 3]).length ≤ m) ∧
    (padTo4 [1, 2, 3]).take (List.length [1, 2, 3]) = [1, 2, 3] ∧
    ∀ b ∈ (padTo4 [1, 2, 3]).drop (List.length [1, 2, 3]), b = 0xff :=
  padTo4_spec [1, 2, 3]

/-! ## Chunking -/

theorem chunksAux_nil {α : Type} (n fuel : Nat) :
    chunksAux n fuel ([] : List α) = [] := by
  cases fuel <;> rfl

/-- Fuel irrelevance: any fuel of at least the list length computes the
canonical split. -/
theorem chunksAux_fuel {α : Type} (n : Nat) (hn : 1 ≤ n) :
    ∀ (fuel : Nat) (l : List α), l.length ≤ fuel →
      chunksAux n fuel l = chunksAux n l.length l := by
  intro fuel
  induction fuel using Nat.strong_induction_on with
  | _ fuel ih =>
    intro l hl
    cases l with
    | nil => rw [chunksAux_nil, chunksAux_nil]
    | cons x xs =>
      cases fuel with
      | zero => simp at hl
      | succ f =>
        have hl' : xs.length + 1 ≤ f + 1 := by simpa using hl
        have hstep : chunksAux n (f + 1) (x :: xs)
            = (x :: xs).take n :: chunksAux n f ((x :: xs).drop n) := rfl
        have hstep2 : chunksAux n (x :: xs).length (x :: xs)
            = (x :: xs).take n :: chunksAux n xs.length ((x :: xs).drop n) := rfl
        have hdl : ((x :: xs).drop n).length = xs.length + 1 - n := by
          simp [List.length_drop]
        rw [hstep, hstep2]
        congr 1
        rw [ih f (by omega) _ (by omega), ih xs.length (by omega) _ (by omega)]

/-- The loop equation of `slice::chunks` for a positive chunk size. -/
theorem chunksOf_eq {α : Type} (n : Nat) (hn : 1 ≤ n) (l : List α) (hne : l ≠ []) :
    chunksOf n l = l.take n :: chunksOf n (l.drop n) := by
  cases l with
  | nil => cases hne rfl
  | cons x xs =>
    have hstep : chunksOf n (x :: xs)
        = (x :: xs).take n :: chunksAux n xs.length ((x :: xs).drop n) := rfl
    rw [hstep]
    congr 1
    have hdl : ((x :: xs).drop n).length = xs.length + 1 - n := by
      simp [List.length_drop]
    rw [chunksAux_fuel n hn xs.length _ (by omega)]
    rfl

/-- Concatenating the chunks restores the original list. -/
theorem chunksOf_flatten {α : Type} (n : Nat) (hn : 1 ≤ n) (l : List α) :
    (chunksOf n l).flatten = l := by
  have key : ∀ (k : Nat) (l : List α), l.length ≤ k → (chunksOf n l).flatten = l := by
    intro k
    induction k with
    | zero =>
        intro l hl
        have : l = [] := List.length_eq_zero.mp (by omega)
        subst this
        rw [show chunksOf n ([] : List α) = [] from rfl]
        rfl
    | succ k ih =>
        intro l hl
        rcases eq_or_ne l [] with h | h
        · subst h
          rw [show chunksOf n ([] : List α) = [] from rfl]
          rfl
        · rw [chunksOf_eq n hn l h, List.flatten_cons,
            ih (l.drop n) (by
              have h1 : 1 ≤ l.length := List.length_pos.mpr h
              simp only [List.length_drop]
              omega)]
          exact List.take_append_drop n l
  exact key l.length l le_rfl

/-- Every produced chunk has size at most `n`. -/
theorem chunksOf_sizes {α : Type} (n : Nat) (hn : 1 ≤ n) (l : List α) :
    ∀ c ∈ chunksOf n l, c.length ≤ n := by
  have key : ∀ (k : Nat) (l : List α), l.length ≤ k → ∀ c ∈ chunksOf n l, c.length ≤ n := by
    intro k
    induction k with
    | zero =>
        intro l hl c hc
        have : l = [] := List.length_eq_zero.mp (by omega)
        subst this
        rw [show chunksOf n ([] : List α) = [] from rfl] at hc
        cases hc
    | succ k ih =>
        intro l hl c hc
        rcases eq_or_ne l [] with h | h
        · subst h
          rw [show chunksOf n ([] : List α) = [] from rfl] at hc
          cases hc
        · rw [chunksOf_eq n hn l h] at hc
          rcases List.mem_cons.mp hc with h1 | h1
          · subst h1
            simpa using Nat.min_le_left n l.length
          · exact ih (l.drop n) (by
              have hp : 1 ≤ l.length := List.length_pos.mpr h
              simp only [List.length_drop]
              omega) c h1
  exact key l.length l le_rfl

theorem M.bind_def {α β : Type} (x : M α) (f : α → M β) : x >>= f = M.bind x f := rfl

theorem M.pure_def {α : Type} (a : α) : (Pure.pure a : M α) = M.pure a := rfl

/-! ## Fragment sizing and streaming -/

theorem maxChunkSize_ge5 (m : Nat) (h : 5 ≤ m) :
    maxChunkSize m = some ((m - 1) / 2 - 1) ∧ 1 ≤ (m - 1) / 2 - 1 := by
  have h1 : 1 ≤ m := by omega
  have h2 : 1 ≤ (m - 1) / 2 := by omega
  refine ⟨?_, by omega⟩
  simp [maxChunkSize, checkedSub, h1, h2]

theorem maxChunkSize_underflow (m : Nat) (h : m ≤ 2) : maxChunkSize m = none := by
  interval_cases m <;> rfl

/-- Sending fragments only appends write requests to the log: no response
is consumed, no failure is possible. -/
theorem sendFragments_run (cs : List (List Nat)) :
    ∀ s : St, sendFragments cs s
      = (Except.ok (), ⟨s.resps, s.sent ++ cs.map Req.write, s.mtu⟩) := by
  induction cs with
  | nil =>
      intro s
      simp [sendFragments, M.pure]
  | cons c cs ih =>
      intro s
      rw [show sendFragments (c :: cs) s
            = sendFragments cs ⟨s.resps, s.sent ++ [Req.write c], s.mtu⟩ from rfl, ih]
      simp

/-- Successful run of `stream_object_data` when the fragment size is
positive. -/
theorem stream_object_data_run (data : List Nat) (s : St) (k : Nat)
    (hk : maxChunkSize s.mtu = some k) (h1 : 1 ≤ k) :
    stream_object_data data s
      = (Except.ok (), ⟨s.resps, s.sent ++ (chunksOf k data).map Req.write, s.mtu⟩) := by
  have hrc : rustChunks k data = some (chunksOf k data) := by
    unfold rustChunks
    rw [if_neg (by omega)]
  have h0 : stream_object_data data s
      = (match maxChunkSize s.mtu with
         | none => M.fail (Fail.panicked "attempt to subtract with overflow")
         | some k =>
            match rustChunks k data with
            | none => M.fail (Fail.panicked "chunk size must be non-zero")
            | some cs => sendFragments cs) s := rfl
  rw [h0, hk]
  simp only []
  rw [hrc]
  exact sendFragments_run (chunksOf k data) s

/-- C3 (amended): `stream_object_data` splits every buffer into fragments
of at most `(mtu − 1) / 2 − 1` bytes — which is 30 for MTU = 64, not 31 —
sends each fragment as one WriteChunk request without consuming any
response, and the fragments concatenate back to the original buffer. -/
theorem stream_fragments_spec (mtu : Nat) (hm : 5 ≤ mtu) (data : List Nat) (s : St)
    (hs : s.mtu = mtu) :
    stream_object_data data s
        = (Except.ok (),
            ⟨s.resps, s.sent ++ (chunksOf ((mtu - 1) / 2 - 1) data).map Req.write, s.mtu⟩) ∧
    (∀ c ∈ chunksOf ((mtu - 1) / 2 - 1) data, c.length ≤ (mtu - 1) / 2 - 1) ∧
    (chunksOf ((mtu - 1) / 2 - 1) data).flatten = data ∧
    ((64 - 1) / 2 - 1 : Nat) = 30 := by
  obtain ⟨hk, h1⟩ := maxChunkSize_ge5 mtu hm
  refine ⟨?_, chunksOf_sizes _ h1 data, chunksOf_flatten _ h1 data, by norm_num⟩
  exact stream_object_data_run data s _ (by rw [hs, hk]) h1

theorem stream_fragments_spec_witness :
    5 ≤ 64 ∧
    (stream_object_data [1, 2] (⟨[], [], 64⟩ : St)
        = (Except.ok (),
            ⟨[], [] ++ (chunksOf ((64 - 1) / 2 - 1) [1, 2]).map Req.write, 64⟩) ∧
      (∀ c ∈ chunksOf ((64 - 1) / 2 - 1) [1, 2], List.length c ≤ (64 - 1) / 2 - 1) ∧
      (chunksOf ((64 - 1) / 2 - 1) [1, 2]).flatten = [1, 2] ∧
      ((64 - 1) / 2 - 1 : Nat) = 30) :=
  ⟨by norm_num, stream_fragments_spec 64 (by norm_num) [1, 2] ⟨[], [], 64⟩ rfl⟩

/-- C3 counterexample: the fragment bound at MTU = 64 is 30 bytes, not the
31 the claim computes — `(64 − 1) / 2 − 1 = 30`. -/
theorem stream_fragment_64_not_31 :
    maxChunkSize 64 = some 30 ∧ maxChunkSize 64 ≠ some 31 ∧
    ((64 - 1) / 2 - 1 : Nat) ≠ 31 := by
  refine ⟨rfl, by decide, by norm_num⟩

/-- C9: `stream_object_data` is total exactly for `mtu ≥ 5`: the `u16`
expression `(mtu − 1) / 2 − 1` underflows (panics) for `mtu ≤ 2`,
evaluates to 0 for `mtu ∈ {3, 4}` making `slice::chunks(0)` panic, and for
every `mtu ≥ 5` the fragment size is at least 1 and the call succeeds on
every buffer. -/
theorem stream_mtu_safety (mtu : Nat) (data : List Nat) (s : St) (hs : s.mtu = mtu) :
    (mtu ≤ 2 →
      stream_object_data data s
        = (Except.error (Fail.panicked "attempt to subtract with overflow"), s)) ∧
    ((mtu = 3 ∨ mtu = 4) → maxChunkSize mtu = some 0 ∧
      stream_object_data data s
        = (Except.error (Fail.panicked "chunk size must be non-zero"), s)) ∧
    (5 ≤ mtu → maxChunkSize mtu = some ((mtu - 1) / 2 - 1) ∧ 1 ≤ (mtu - 1) / 2 - 1 ∧
      (stream_object_data data s).1 = Except.ok ()) := by
  have h0 : stream_object_data data s
      = (match maxChunkSize s.mtu with
         | none => M.fail (Fail.panicked "attempt to subtract with overflow")
         | some k =>
            match rustChunks k data with
            | none => M.fail (Fail.panicked "chunk size must be non-zero")
            | some cs => sendFragments cs) s := rfl
  refine ⟨?_, ?_, ?_⟩
  · intro h2
    rw [h0, hs, maxChunkSize_underflow mtu h2]
    rfl
  · rintro (h3 | h3) <;> subst h3 <;>
      exact ⟨rfl, by rw [h0, hs]; rfl⟩
  · intro h5
    obtain ⟨hk, h1⟩ := maxChunkSize_ge5 mtu h5
    refine ⟨hk, h1, ?_⟩
    rw [stream_object_data_run data s _ (by rw [hs, hk]) h1]

theorem stream_mtu_safety_witness :
    (2 ≤ 2 →
      stream_object_data [9] (⟨[], [], 2⟩ : St)
        = (Except.error (Fail.panicked "attempt to subtract with overflow"),
            (⟨[], [], 2⟩ : St))) ∧
    (((2 : Nat) = 3 ∨ (2 : Nat) = 4) → maxChunkSize 2 = some 0 ∧
      stream_object_data [9] (⟨[], [], 2⟩ : St)
        = (Except.error (Fail.panicked "chunk size must be non-zero"),
            (⟨[], [], 2⟩ : St))) ∧
    (5 ≤ 2 → maxChunkSize 2 = some ((2 - 1) / 2 - 1) ∧ 1 ≤ (2 - 1) / 2 - 1 ∧
      (stream_object_data [9] (⟨[], [], 2⟩ : St)).1 = Except.ok ()) :=
  stream_mtu_safety 2 [9] ⟨[], [], 2⟩ rfl

/-! ## Session step lemmas -/

/-- Stepping a bind whose first component succeeds. -/
theorem bindStep {α β : Type} (x : M α) (s s' : St) (a : α)
    (hx : x s = (Except.ok a, s')) (f : α → M β) :
    M.bind x f s = f a s' := by
  unfold M.bind
  rw [hx]

/-- Stepping a bind whose first component fails. -/
theorem bindStepErr {α β : Type} (x : M α) (s s' : St) (e : Fail)
    (hx : x s = (Except.error e, s')) (f : α → M β) :
    M.bind x f s = (Except.error e, s') := by
  unfold M.bind
  rw [hx]

/-! ## Connection setup (`BootloaderConnection::new`) -/

/-- C4: if the device reports a protocol version other than the supported
version 1, `BootloaderConnection::new` fails after having sent only the
version query — no other request reaches the device; if it reports 1, the
setup proceeds to query the MTU and stores it in the connection. -/
theorem connNew_spec (sent : List Req) (m0 : Nat) :
    (∀ v : Nat, v ≠ PROTOCOL_VERSION → ∀ rest : List (Except String RespVal),
      connNew ⟨Except.ok (RespVal.version v) :: rest, sent, m0⟩
        = (Except.error (Fail.err "device reports unsupported protocol version"),
            ⟨rest, sent ++ [Req.protocolVersion], m0⟩)) ∧
    (∀ (mtuv : Nat) (rest : List (Except String RespVal)),
      connNew ⟨Except.ok (RespVal.version 1) :: Except.ok (RespVal.mtu mtuv) :: rest,
                sent, m0⟩
        = (Except.ok (), ⟨rest, sent ++ [Req.protocolVersion, Req.getMtu], mtuv⟩)) := by
  constructor
  · intro v hv rest
    have hstep : connNew ⟨Except.ok (RespVal.version v) :: rest, sent, m0⟩
        = M.bind fetch_protocol_version (fun v =>
            if v = PROTOCOL_VERSION then
              M.bind fetch_mtu (fun m => setMtuState m)
            else M.fail (Fail.err "device reports unsupported protocol version"))
          ⟨Except.ok (RespVal.version v) :: rest, sent, m0⟩ := rfl
    have h1 : fetch_protocol_version ⟨Except.ok (RespVal.version v) :: rest, sent, m0⟩
        = (Except.ok v, ⟨rest, sent ++ [Req.protocolVersion], m0⟩) := rfl
    rw [hstep, bindStep _ _ _ _ h1]
    rw [if_neg hv]
    rfl
  · intro mtuv rest
    have hstep : connNew ⟨Except.ok (RespVal.version 1) :: Except.ok (RespVal.mtu mtuv)
          :: rest, sent, m0⟩
        = M.bind fetch_protocol_version (fun v =>
            if v = PROTOCOL_VERSION then
              M.bind fetch_mtu (fun m => setMtuState m)
            else M.fail (Fail.err "device reports unsupported protocol version"))
          ⟨Except.ok (RespVal.version 1) :: Except.ok (RespVal.mtu mtuv) :: rest,
            sent, m0⟩ := rfl
    have h1 : fetch_protocol_version
        ⟨Except.ok (RespVal.version 1) :: Except.ok (RespVal.mtu mtuv) :: rest, sent, m0⟩
        = (Except.ok 1,
            ⟨Except.ok (RespVal.mtu mtuv) :: rest, sent ++ [Req.protocolVersion], m0⟩) := rfl
    have h2 : fetch_mtu
        ⟨Except.ok (RespVal.mtu mtuv) :: rest, sent ++ [Req.protocolVersion], m0⟩
        = (Except.ok mtuv,
            ⟨rest, (sent ++ [Req.protocolVersion]) ++ [Req.getMtu], m0⟩) := rfl
    rw [hstep, bindStep _ _ _ _ h1,
      if_pos (show (1 : Nat) = PROTOCOL_VERSION from rfl), bindStep _ _ _ _ h2]
    simp [setMtuState]

theorem connNew_spec_witness :
    ((2 : Nat) ≠ PROTOCOL_VERSION → ∀ rest : List (Except String RespVal),
      connNew ⟨Except.ok (RespVal.version 2) :: rest, [], 0⟩
        = (Except.error (Fail.err "device reports unsupported protocol version"),
            ⟨rest, [] ++ [Req.protocolVersion], 0⟩)) ∧
    (connNew ⟨Except.ok (RespVal.version 1) :: Except.ok (RespVal.mtu 64) :: [], [], 0⟩
        = (Except.ok (), ⟨[], [] ++ [Req.protocolVersion, Req.getMtu], 64⟩)) :=
  ⟨fun h => (connNew_spec [] 0).1 2 h, (connNew_spec [] 0).2 64 []⟩

/-! ## Init-packet transfer (`send_dat`) -/

/-- C7: `send_dat` selects the Command object, creates a Command object of
exactly the init packet's length, streams the packet, fetches the CRC and
checks it against CRC32 of the packet with zero initial state, then
executes; on a CRC mismatch it fails and the Execute request is never
sent. -/
theorem send_dat_spec (data : List Nat) (m : Nat) (hm : 5 ≤ m)
    (sr : SelectResponse) (off c : Nat)
    (rest : List (Except String RespVal)) (sent : List Req) :
    (c = crc32 0 data →
      send_dat data ⟨Except.ok (RespVal.sel sr) :: Except.ok RespVal.empty
          :: Except.ok (RespVal.crcVal ⟨off, c⟩) :: Except.ok RespVal.empty :: rest,
          sent, m⟩
        = (Except.ok (),
            ⟨rest,
              sent ++ (Req.select ObjectType.command
                :: Req.create ObjectType.command data.length
                :: ((chunksOf ((m - 1) / 2 - 1) data).map Req.write
                    ++ [Req.crc, Req.execute])), m⟩)) ∧
    (c ≠ crc32 0 data →
      send_dat data ⟨Except.ok (RespVal.sel sr) :: Except.ok RespVal.empty
          :: Except.ok (RespVal.crcVal ⟨off, c⟩) :: Except.ok RespVal.empty :: rest,
          sent, m⟩
        = (Except.error (Fail.err "crc failed"),
            ⟨Except.ok RespVal.empty :: rest,
              sent ++ (Req.select ObjectType.command
                :: Req.create ObjectType.command data.length
                :: ((chunksOf ((m - 1) / 2 - 1) data).map Req.write
                    ++ [Req.crc])), m⟩)) := by
  obtain ⟨hk, h1k⟩ := maxChunkSize_ge5 m hm
  have hstep : ∀ st : St, send_dat data st
      = M.bind select_object_command (fun _sel =>
          M.bind (create_command_object data.length) (fun _ =>
            M.bind (stream_object_data data) (fun _ =>
              M.bind get_crc (fun received =>
                M.bind (M.liftE (check_crc data received.crc 0)) (fun _c =>
                  execute))))) st := fun st => rfl
  have h1 : select_object_command
      ⟨Except.ok (RespVal.sel sr) :: Except.ok RespVal.empty
        :: Except.ok (RespVal.crcVal ⟨off, c⟩) :: Except.ok RespVal.empty :: rest,
        sent, m⟩
      = (Except.ok sr,
          ⟨Except.ok RespVal.empty :: Except.ok (RespVal.crcVal ⟨off, c⟩)
            :: Except.ok RespVal.empty :: rest,
            sent ++ [Req.select ObjectType.command], m⟩) := rfl
  have h2 : create_command_object data.length
      ⟨Except.ok RespVal.empty :: Except.ok (RespVal.crcVal ⟨off, c⟩)
        :: Except.ok RespVal.empty :: rest,
        sent ++ [Req.select ObjectType.command], m⟩
      = (Except.ok (),
          ⟨Except.ok (RespVal.crcVal ⟨off, c⟩) :: Except.ok RespVal.empty :: rest,
            (sent ++ [Req.select ObjectType.command])
              ++ [Req.create ObjectType.command data.length], m⟩) := rfl
  have h3 := stream_object_data_run data
      ⟨Except.ok (RespVal.crcVal ⟨off, c⟩) :: Except.ok RespVal.empty :: rest,
        (sent ++ [Req.select ObjectType.command])
          ++ [Req.create ObjectType.command data.length], m⟩
      ((m - 1) / 2 - 1) hk h1k
  have h4 : get_crc
      ⟨Except.ok (RespVal.crcVal ⟨off, c⟩) :: Except.ok RespVal.empty :: rest,
        ((sent ++ [Req.select ObjectType.command])
          ++ [Req.create ObjectType.command data.length])
          ++ (chunksOf ((m - 1) / 2 - 1) data).map Req.write, m⟩
      = (Except.ok (⟨off, c⟩ : CrcResponse),
          ⟨Except.ok RespVal.empty :: rest,
            (((sent ++ [Req.select ObjectType.command])
              ++ [Req.create ObjectType.command data.length])
              ++ (chunksOf ((m - 1) / 2 - 1) data).map Req.write) ++ [Req.crc], m⟩) := rfl
  constructor
  · intro hc
    subst hc
    have hcc : check_crc data (crc32 0 data) 0 = Except.ok (crc32 0 data) := by
      simp [check_crc]
    have h5 : M.liftE (check_crc data (crc32 0 data) 0)
        ⟨Except.ok RespVal.empty :: rest,
          (((sent ++ [Req.select ObjectType.command])
            ++ [Req.create ObjectType.command data.length])
            ++ (chunksOf ((m - 1) / 2 - 1) data).map Req.write) ++ [Req.crc], m⟩
        = (Except.ok (crc32 0 data),
            ⟨Except.ok RespVal.empty :: rest,
              (((sent ++ [Req.select ObjectType.command])
                ++ [Req.create ObjectType.command data.length])
                ++ (chunksOf ((m - 1) / 2 - 1) data).map Req.write) ++ [Req.crc], m⟩) := by
      rw [show M.liftE (check_crc data (crc32 0 data) 0)
            ⟨Except.ok RespVal.empty :: rest,
              (((sent ++ [Req.select ObjectType.command])
                ++ [Req.create ObjectType.command data.length])
                ++ (chunksOf ((m - 1) / 2 - 1) data).map Req.write) ++ [Req.crc], m⟩
          = (check_crc data (crc32 0 data) 0,
              ⟨Except.ok RespVal.empty :: rest,
                (((sent ++ [Req.select ObjectType.command])
                  ++ [Req.create ObjectType.command data.length])
                  ++ (chunksOf ((m - 1) / 2 - 1) data).map Req.write) ++ [Req.crc], m⟩)
          from rfl, hcc]
    rw [hstep, bindStep _ _ _ _ h1, bindStep _ _ _ _ h2, bindStep _ _ _ _ h3,
      bindStep _ _ _ _ h4]
    simp only []
    rw [bindStep _ _ _ _ h5]
    rw [show execute
        ⟨Except.ok RespVal.empty :: rest,
          (((sent ++ [Req.select ObjectType.command])
            ++ [Req.create ObjectType.command data.length])
            ++ (chunksOf ((m - 1) / 2 - 1) data).map Req.write) ++ [Req.crc], m⟩
      = (Except.ok (),
          ⟨rest,
            ((((sent ++ [Req.select ObjectType.command])
              ++ [Req.create ObjectType.command data.length])
              ++ (chunksOf ((m - 1) / 2 - 1) data).map Req.write) ++ [Req.crc])
              ++ [Req.execute], m⟩) from rfl]
    simp [List.append_assoc]
  · intro hc
    have hcc : check_crc data c 0 = Except.error (Fail.err "crc failed") := by
      unfold check_crc
      rw [if_neg (fun h => hc h.symm)]
    have h5 : M.liftE (check_crc data c 0)
        ⟨Except.ok RespVal.empty :: rest,
          (((sent ++ [Req.select ObjectType.command])
            ++ [Req.create ObjectType.command data.length])
            ++ (chunksOf ((m - 1) / 2 - 1) data).map Req.write) ++ [Req.crc], m⟩
        = (Except.error (Fail.err "crc failed"),
            ⟨Except.ok RespVal.empty :: rest,
              (((sent ++ [Req.select ObjectType.command])
                ++ [Req.create ObjectType.command data.length])
                ++ (chunksOf ((m - 1) / 2 - 1) data).map Req.write) ++ [Req.crc], m⟩) := by
      rw [show M.liftE (check_crc data c 0)
            ⟨Except.ok RespVal.empty :: rest,
              (((sent ++ [Req.select ObjectType.command])
                ++ [Req.create ObjectType.command data.length])
                ++ (chunksOf ((m - 1) / 2 - 1) data).map Req.write) ++ [Req.crc], m⟩
          = (check_crc data c 0,
              ⟨Except.ok RespVal.empty :: rest,
                (((sent ++ [Req.select ObjectType.command])
                  ++ [Req.create ObjectType.command data.length])
                  ++ (chunksOf ((m - 1) / 2 - 1) data).map Req.write) ++ [Req.crc], m⟩)
          from rfl, hcc]
    rw [hstep, bindStep _ _ _ _ h1, bindStep _ _ _ _ h2, bindStep _ _ _ _ h3,
      bindStep _ _ _ _ h4]
    simp only []
    rw [bindStepErr _ _ _ _ h5]
    simp [List.append_assoc]

theorem send_dat_spec_witness :
    send_dat [1, 2] ⟨[Except.ok (RespVal.sel ⟨256, 0, 0⟩), Except.ok RespVal.empty,
        Except.ok (RespVal.crcVal ⟨2, crc32 0 [1, 2]⟩), Except.ok RespVal.empty], [], 64⟩
      = (Except.ok (),
          ⟨[], [] ++ (Req.select ObjectType.command
            :: Req.create ObjectType.command (List.length [1, 2])
            :: ((chunksOf ((64 - 1) / 2 - 1) [1, 2]).map Req.write
                ++ [Req.crc, Req.execute])), 64⟩) :=
  (send_dat_spec [1, 2] 64 (by norm_num) ⟨256, 0, 0⟩ 2 (crc32 0 [1, 2]) [] []).1 rfl

/-! ## Firmware transfer (`send_bin`) -/

/-- Running the per-chunk loop against a correct device consumes exactly
the per-chunk responses and sends create/write*/crc/execute per chunk. -/
theorem sendBinLoop_run (m k : Nat) (hk : maxChunkSize m = some k) (h1k : 1 ≤ k) :
    ∀ (cs : List (List Nat)) (prev : Nat) (rest : List (Except String RespVal))
      (sent : List Req),
      sendBinLoop cs prev ⟨binChunkResps prev cs ++ rest, sent, m⟩
        = (Except.ok (), ⟨rest, sent ++ binLoopSent k cs, m⟩) := by
  intro cs
  induction cs with
  | nil =>
      intro prev rest sent
      show M.pure () _ = _
      simp [M.pure, binChunkResps, binLoopSent]
  | cons c cs ih =>
      intro prev rest sent
      have hstep : ∀ st : St, sendBinLoop (c :: cs) prev st
          = M.bind (create_data_object c.length) (fun _ =>
              M.bind (stream_object_data c) (fun _ =>
                M.bind get_crc (fun received =>
                  M.bind (M.liftE (check_crc c received.crc prev)) (fun newCrc =>
                    M.bind execute (fun _ =>
                      sendBinLoop cs newCrc))))) st := fun st => rfl
      have h1 : create_data_object c.length
          ⟨binChunkResps prev (c :: cs) ++ rest, sent, m⟩
          = (Except.ok (),
              ⟨Except.ok (RespVal.crcVal ⟨0, crc32 prev c⟩) :: Except.ok RespVal.empty
                :: (binChunkResps (crc32 prev c) cs ++ rest),
                sent ++ [Req.create ObjectType.data c.length], m⟩) := rfl
      have h2 := stream_object_data_run c
          ⟨Except.ok (RespVal.crcVal ⟨0, crc32 prev c⟩) :: Except.ok RespVal.empty
            :: (binChunkResps (crc32 prev c) cs ++ rest),
            sent ++ [Req.create ObjectType.data c.length], m⟩ k hk h1k
      have h3 : get_crc
          ⟨Except.ok (RespVal.crcVal ⟨0, crc32 prev c⟩) :: Except.ok RespVal.empty
            :: (binChunkResps (crc32 prev c) cs ++ rest),
            (sent ++ [Req.create ObjectType.data c.length])
              ++ (chunksOf k c).map Req.write, m⟩
          = (Except.ok (⟨0, crc32 prev c⟩ : CrcResponse),
              ⟨Except.ok RespVal.empty :: (binChunkResps (crc32 prev c) cs ++ rest),
                ((sent ++ [Req.create ObjectType.data c.length])
                  ++ (chunksOf k c).map Req.write) ++ [Req.crc], m⟩) := rfl
      have hcc : check_crc c (crc32 prev c) prev = Except.ok (crc32 prev c) := by
        simp [check_crc]
      have h4 : M.liftE (check_crc c (crc32 prev c) prev)
          ⟨Except.ok RespVal.empty :: (binChunkResps (crc32 prev c) cs ++ rest),
            ((sent ++ [Req.create ObjectType.data c.length])
              ++ (chunksOf k c).map Req.write) ++ [Req.crc], m⟩
          = (Except.ok (crc32 prev c),
              ⟨Except.ok RespVal.empty :: (binChunkResps (crc32 prev c) cs ++ rest),
                ((sent ++ [Req.create ObjectType.data c.length])
                  ++ (chunksOf k c).map Req.write) ++ [Req.crc], m⟩) := by
        rw [show M.liftE (check_crc c (crc32 prev c) prev)
              ⟨Except.ok RespVal.empty :: (binChunkResps (crc32 prev c) cs ++ rest),
                ((sent ++ [Req.create ObjectType.data c.length])
                  ++ (chunksOf k c).map Req.write) ++ [Req.crc], m⟩
            = (check_crc c (crc32 prev c) prev,
                ⟨Except.ok RespVal.empty :: (binChunkResps (crc32 prev c) cs ++ rest),
                  ((sent ++ [Req.create ObjectType.data c.length])
                    ++ (chunksOf k c).map Req.write) ++ [Req.crc], m⟩) from rfl, hcc]
      have h5 : execute
          ⟨Except.ok RespVal.empty :: (binChunkResps (crc32 prev c) cs ++ rest),
            (((sent ++ [Req.create ObjectType.data c.length])
              ++ (chunksOf k c).map Req.write) ++ [Req.crc]), m⟩
          = (Except.ok (),
              ⟨binChunkResps (crc32 prev c) cs ++ rest,
                ((((sent ++ [Req.create ObjectType.data c.length])
                  ++ (chunksOf k c).map Req.write) ++ [Req.crc])) ++ [Req.execute], m⟩) := rfl
      rw [hstep, bindStep _ _ _ _ h1, bindStep _ _ _ _ h2, bindStep _ _ _ _ h3]
      simp only []
      rw [bindStep _ _ _ _ h4, bindStep _ _ _ _ h5, ih (crc32 prev c)]
      simp [binLoopSent, List.append_assoc]

/-- The per-chunk loop never issues a Select request. -/
theorem select_not_mem_binLoopSent (k : Nat) (ty : ObjectType) :
    ∀ cs : List (List Nat), Req.select ty ∉ binLoopSent k cs := by
  intro cs
  induction cs with
  | nil => simp [binLoopSent]
  | cons c cs ih =>
      simp only [binLoopSent, List.mem_cons, List.mem_append, List.mem_map]
      rintro (h | ⟨x, _, h⟩ | h | h | h) <;> first
        | exact Req.noConfusion h
        | exact ih h

/-- Chunking a 4100-byte image at max object size 4096 yields exactly a
4096-byte chunk followed by a 4-byte chunk. -/
theorem replicate_ne_nil_of_pos (n : Nat) (hn : 0 < n) (a : Nat) :
    List.replicate n a ≠ [] := by
  intro h
  have hl := congrArg List.length h
  rw [List.length_replicate, List.length_nil] at hl
  omega

theorem chunksOf_4100 :
    (chunksOf 4096 (List.replicate 4100 (0xff : Nat))).map List.length = [4096, 4] := by
  rw [chunksOf_eq 4096 (by norm_num) _ (replicate_ne_nil_of_pos 4100 (by norm_num) _)]
  rw [List.take_replicate, List.drop_replicate]
  have hmin : min 4096 4100 = 4096 := by norm_num
  have hsub : 4100 - 4096 = 4 := by norm_num
  rw [hmin, hsub]
  rw [chunksOf_eq 4096 (by norm_num) _ (replicate_ne_nil_of_pos 4 (by norm_num) _)]
  rw [List.take_replicate, List.drop_replicate]
  have hmin4 : min 4096 4 = 4 := by norm_num
  have hsub4 : 4 - 4096 = 0 := by norm_num
  rw [hmin4, hsub4]
  rw [show List.replicate 0 (0xff : Nat) = [] from rfl]
  rw [show chunksOf 4096 ([] : List Nat) = [] from rfl]
  rw [List.map_cons, List.map_cons, List.map_nil,
    List.length_replicate, List.length_replicate]

/-- C6: `send_bin` selects the Data object exactly once, splits the image
into consecutive chunks of at most the reported `max_size` (for a
4100-byte padded image and max_size 4096: chunks of 4096 then 4 bytes),
and for each chunk in order creates a Data object of the chunk's exact
size, streams it, fetches and verifies the cumulative CRC, and executes. -/
theorem send_bin_spec (image : List Nat) (max_size : Nat) (hms : 1 ≤ max_size)
    (m k : Nat) (hk : maxChunkSize m = some k) (h1k : 1 ≤ k)
    (off crcv : Nat) (rest : List (Except String RespVal)) (sent : List Req) :
    send_bin image
        ⟨Except.ok (RespVal.sel ⟨max_size, off, crcv⟩)
          :: (binChunkResps 0 (chunksOf max_size image) ++ rest), sent, m⟩
      = (Except.ok (),
          ⟨rest,
            sent ++ (Req.select ObjectType.data
              :: binLoopSent k (chunksOf max_size image)), m⟩) ∧
    (∀ c ∈ chunksOf max_size image, c.length ≤ max_size) ∧
    (chunksOf max_size image).flatten = image ∧
    Req.select ObjectType.data ∉ binLoopSent k (chunksOf max_size image) ∧
    (chunksOf 4096 (List.replicate 4100 (0xff : Nat))).map List.length = [4096, 4] := by
  refine ⟨?_, chunksOf_sizes max_size hms image, chunksOf_flatten max_size hms image,
    select_not_mem_binLoopSent k ObjectType.data _, chunksOf_4100⟩
  have hstep : ∀ st : St, send_bin image st
      = M.bind select_object_data (fun sel =>
          match rustChunks sel.maxSize image with
          | none => M.fail (Fail.panicked "chunk size must be non-zero")
          | some cs => sendBinLoop cs 0) st := fun st => rfl
  have h1 : select_object_data
      ⟨Except.ok (RespVal.sel ⟨max_size, off, crcv⟩)
        :: (binChunkResps 0 (chunksOf max_size image) ++ rest), sent, m⟩
      = (Except.ok (⟨max_size, off, crcv⟩ : SelectResponse),
          ⟨binChunkResps 0 (chunksOf max_size image) ++ rest,
            sent ++ [Req.select ObjectType.data], m⟩) := rfl
  have hrc : rustChunks ((⟨max_size, off, crcv⟩ : SelectResponse)).maxSize image
      = some (chunksOf max_size image) := by
    show rustChunks max_size image = some (chunksOf max_size image)
    unfold rustChunks
    rw [if_neg (by omega)]
  rw [hstep, bindStep _ _ _ _ h1, hrc]
  simp only []
  rw [sendBinLoop_run m k hk h1k (chunksOf max_size image) 0 rest
    (sent ++ [Req.select ObjectType.data])]
  simp [List.append_assoc]

theorem send_bin_spec_witness :
    1 ≤ 4096 ∧ maxChunkSize 64 = some 30 ∧
    (send_bin [1, 2, 3, 4]
        ⟨Except.ok (RespVal.sel ⟨4096, 0, 0⟩)
          :: (binChunkResps 0 (chunksOf 4096 [1, 2, 3, 4]) ++ []), [], 64⟩
      = (Except.ok (),
          ⟨[],
            [] ++ (Req.select ObjectType.data
              :: binLoopSent 30 (chunksOf 4096 [1, 2, 3, 4])), 64⟩) ∧
      (∀ c ∈ chunksOf 4096 [1, 2, 3, 4], List.length c ≤ 4096) ∧
      (chunksOf 4096 [1, 2, 3, 4]).flatten = [1, 2, 3, 4] ∧
      Req.select ObjectType.data ∉ binLoopSent 30 (chunksOf 4096 [1, 2, 3, 4]) ∧
      (chunksOf 4096 (List.replicate 4100 (0xff : Nat))).map List.length = [4096, 4]) :=
  ⟨by norm_num, rfl,
    send_bin_spec [1, 2, 3, 4] 4096 (by norm_num) 64 30 rfl (by norm_num) 0 0 [] []⟩

/-- C10: when the Data-object select response reports `max_size = 0`,
`send_bin` on a non-empty image panics in `slice::chunks` rather than
returning an error; for every `max_size ≥ 1` the chunk split is total. -/
theorem send_bin_max_size_zero :
    (∀ image : List Nat, image ≠ [] →
      ∀ (off crcv : Nat) (rest : List (Except String RespVal)) (sent : List Req) (m : Nat),
        send_bin image ⟨Except.ok (RespVal.sel ⟨0, off, crcv⟩) :: rest, sent, m⟩
          = (Except.error (Fail.panicked "chunk size must be non-zero"),
              ⟨rest, sent ++ [Req.select ObjectType.data], m⟩)) ∧
    (∀ n : Nat, 1 ≤ n → ∀ image : List Nat, (rustChunks n image).isSome = true) := by
  constructor
  · intro image hne off crcv rest sent m
    have hstep : ∀ st : St, send_bin image st
        = M.bind select_object_data (fun sel =>
            match rustChunks sel.maxSize image with
            | none => M.fail (Fail.panicked "chunk size must be non-zero")
            | some cs => sendBinLoop cs 0) st := fun st => rfl
    have h1 : select_object_data
        ⟨Except.ok (RespVal.sel ⟨0, off, crcv⟩) :: rest, sent, m⟩
        = (Except.ok (⟨0, off, crcv⟩ : SelectResponse),
            ⟨rest, sent ++ [Req.select ObjectType.data], m⟩) := rfl
    have hrc : rustChunks ((⟨0, off, crcv⟩ : SelectResponse)).maxSize image
        = none := rfl
    rw [hstep, bindStep _ _ _ _ h1, hrc]
    rfl
  · intro n hn image
    unfold rustChunks
    rw [if_neg (by omega)]
    rfl

theorem send_bin_max_size_zero_witness :
    ([9] : List Nat) ≠ [] ∧ 1 ≤ 3 ∧
    send_bin [9] ⟨[Except.ok (RespVal.sel ⟨0, 7, 8⟩)], [], 64⟩
      = (Except.error (Fail.panicked "chunk size must be non-zero"),
          ⟨[], [] ++ [Req.select ObjectType.data], 64⟩) ∧
    (rustChunks 3 [1, 2, 3, 4]).isSome = true :=
  ⟨by decide, by norm_num,
    send_bin_max_size_zero.1 [9] (by decide) 7 8 [] [] 64,
    send_bin_max_size_zero.2 3 (by norm_num) [1, 2, 3, 4]⟩

/-! ## Session failure semantics (`run`) -/

set_option maxHeartbeats 64000000

set_option maxHeartbeats 2000000

/-- C8: `select_port` fails when zero or several serial devices match the
bootloader's USB VID/PID; with exactly one match it opens that device at
the given baud rate with a 60 s read timeout, surfacing any open error. -/
theorem select_port_spec (openOracle : String → Except String Unit)
    (ports : List SerialPortInfo) (baud_rate : Nat) :
    (ports.filter matchesNordic = [] →
      select_port openOracle ports baud_rate
        = Except.error "no matching USB serial device found") ∧
    (∀ p : SerialPortInfo, ports.filter matchesNordic = [p] →
      select_port openOracle ports baud_rate
        = match openOracle p.port_name with
          | Except.ok () => Except.ok ⟨p.port_name, baud_rate, 60000⟩
          | Except.error e => Except.error e) ∧
    (∀ (p q : SerialPortInfo) (others : List SerialPortInfo),
      ports.filter matchesNordic = p :: q :: others →
      select_port openOracle ports baud_rate
        = Except.error "multiple matching USB serial devices found") := by
  refine ⟨?_, ?_, ?_⟩
  · intro h
    unfold select_port
    rw [h]
  · intro p h
    unfold select_port
    rw [h]
  · intro p q others h
    unfold select_port
    rw [h]

theorem select_port_spec_witness :
    select_port (fun _ => Except.ok ()) [] 115200
        = Except.error "no matching USB serial device found" ∧
    select_port (fun _ => Except.ok ())
        [⟨"COM3", SerialPortType.usbPort ⟨0x1915, 0x521f⟩⟩] 115200
        = Except.ok ⟨"COM3", 115200, 60000⟩ ∧
    select_port (fun _ => Except.error "open failed")
        [⟨"COM3", SerialPortType.usbPort ⟨0x1915, 0x521f⟩⟩] 115200
        = Except.error "open failed" ∧
    select_port (fun _ => Except.ok ())
        [⟨"A", SerialPortType.usbPort ⟨0x1915, 0x521f⟩⟩,
          ⟨"B", SerialPortType.usbPort ⟨0x1915, 0x521f⟩⟩] 115200
        = Except.error "multiple matching USB serial devices found" :=
  ⟨(select_port_spec _ _ _).1 rfl,
    (select_port_spec _ _ _).2.1 ⟨"COM3", SerialPortType.usbPort ⟨0x1915, 0x521f⟩⟩ rfl,
    (select_port_spec _ _ _).2.1 ⟨"COM3", SerialPortType.usbPort ⟨0x1915, 0x521f⟩⟩ rfl,
    (select_port_spec _ _ _).2.2 ⟨"A", SerialPortType.usbPort ⟨0x1915, 0x521f⟩⟩
      ⟨"B", SerialPortType.usbPort ⟨0x1915, 0x521f⟩⟩ [] rfl⟩
